import Mathlib

/-!
Verification of `convert_h5_weights.py` (BadrBch/Negotiatior).

The script converts Keras H5 weight containers into a flat TensorFlow.js
binary blob.  We embed the three components shallowly:

* `extract_h5_weights` (the Extractor): walks `layers/<name>/vars/{0,1}` of
  an opened container and builds an insertion-ordered dictionary from
  `"<name>/kernel"` / `"<name>/bias"` to tensors.  The inner walk is guarded
  by a `try/except` that turns any raised exception into the return value
  `None`; opening the container (`h5py.File`) happens *before* that guard,
  so an open failure propagates to the caller.  We model an exception as
  `Except.error ()`, the caught-and-converted case as `.ok none`, and raw
  containers as `H5Source` (either `unopenable`, or `opened` with parsed
  content).  A dataset whose read raises (I/O failure mid-file) is modelled
  by the node constructor `Node.corrupt`.

* `create_tfjs_weights` (the Packer): iterates the fixed 8-slot
  `weight_order`, casts each present tensor to float32
  (`.astype(np.float32)`) and appends its raw bytes to
  `group1-shard1of1.bin`, collecting one spec entry per written tensor.
  Array elements are modelled at the bit level: `Tensor.data` is the list
  of element values as natural numbers, `astype_float32` reduces every
  element to a 32-bit word (the float32 bit pattern; equal bit patterns
  denote equal float32 values), and `tobytes` serialises each word as four
  little-endian bytes with no header or padding (`wordBytesLE`).

* `main` (the driver): iterates the hardcoded 3-entry model list, skipping
  a job when its source path is missing or when the Extractor returned
  `None`, otherwise running `os.makedirs(..., exist_ok=True)` and the
  Packer.  The filesystem is a pair of a directory list and a file map
  (`FS`); `open(bin_path, 'wb')` succeeds iff the parent directory exists,
  and truncates/overwrites any previous content.
-/

/-- A numeric array: a shape and the flat row-major list of element values.
Element values are natural numbers standing for bit patterns; after
`astype_float32` every element is a 32-bit word. -/
structure Tensor where
  shape : List Nat
  data : List Nat
deriving DecidableEq

/-- Reduction of an element value to a 32-bit word, the residue that
`np.float32` serialisation can observe. -/
def word32 (w : Nat) : Nat := w % 4294967296

/-- Model of `arr.astype(np.float32)`: every element becomes a 32-bit word;
the shape is unchanged. -/
def astype_float32 (t : Tensor) : Tensor :=
  { shape := t.shape, data := t.data.map word32 }

/-- The four little-endian bytes of one 32-bit word (`tobytes` for a single
float32 element). -/
def wordBytesLE (w : Nat) : List Nat :=
  [w % 256, w / 256 % 256, w / 65536 % 256, w / 16777216 % 256]

/-- `tobytes` over a flat element list: concatenation of the per-element
little-endian 4-byte groups, with no separators. -/
def wordsBytes : List Nat → List Nat
  | [] => []
  | w :: rest => wordBytesLE w ++ wordsBytes rest

/-- Raw bytes of a tensor (`weight_data.tobytes()`). -/
def tensorBytes (t : Tensor) : List Nat := wordsBytes t.data

/-- Inverse of serialisation: group a byte stream into 32-bit words,
little-endian.  A trailing group of fewer than four bytes is dropped. -/
def decodeWords : List Nat → List Nat
  | b0 :: b1 :: b2 :: b3 :: rest =>
      (b0 + 256 * b1 + 65536 * b2 + 16777216 * b3) :: decodeWords rest
  | _ => []

/-- Python-dict lookup on an insertion-ordered association list
(`key in d` / `d[key]`). -/
def dictLookup {α : Type} : List (String × α) → String → Option α
  | [], _ => none
  | (k, v) :: rest, key => if key = k then some v else dictLookup rest key

/-- A WeightSet: the insertion-ordered dictionary built by the Extractor
and consumed by the Packer. -/
abbrev WeightSet := List (String × Tensor)

/-- A node under `layers/<name>/vars/<i>`: a readable dataset, or a dataset
whose read (`vars_group['0'][:]`) raises. -/
inductive Node where
  | dataset (t : Tensor)
  | corrupt
deriving DecidableEq

/-- The `vars` subgroup of one layer: optional index `"0"` (kernel) and
optional index `"1"` (bias). -/
structure VarsGroup where
  var0 : Option Node
  var1 : Option Node
deriving DecidableEq

/-- One layer group: an optional `vars` subgroup. -/
structure LayerGroup where
  vars : Option VarsGroup
deriving DecidableEq

/-- A parsed container: an optional top-level `layers` group mapping layer
names to layer groups. -/
structure H5File where
  layers : Option (List (String × LayerGroup))
deriving DecidableEq

/-- A container on disk, as seen by `h5py.File(path, 'r')`: either opening
raises (malformed container / I/O failure at open), or it opens to parsed
content. -/
inductive H5Source where
  | unopenable
  | opened (f : H5File)
deriving DecidableEq

/-- The fixed layer iteration order of the extraction loop. -/
def layer_names : List String := ["dense", "dense_1", "dense_2", "dense_3"]

/-- Reading one var dataset: `vars_group[i][:]`.  A corrupt dataset raises. -/
def readNode : Node → Except Unit Tensor
  | Node.dataset t => Except.ok t
  | Node.corrupt => Except.error ()

/-- One optional var slot of the extraction loop: if the index is present,
read it and insert it under `key`; absent indices are skipped. -/
def readVar (ws : WeightSet) (key : String) : Option Node → Except Unit WeightSet
  | none => Except.ok ws
  | some n =>
    match readNode n with
    | Except.ok t => Except.ok (ws ++ [(key, t)])
    | Except.error e => Except.error e

/-- One iteration of the extraction loop for `layer_name`: skip if the layer
or its `vars` subgroup is absent, else read the optional kernel (index `"0"`)
and then the optional bias (index `"1"`). -/
def extractLayer (root : List (String × LayerGroup)) (ws : WeightSet)
    (layer_name : String) : Except Unit WeightSet :=
  match dictLookup root layer_name with
  | none => Except.ok ws
  | some layer_group =>
    match layer_group.vars with
    | none => Except.ok ws
    | some vars_group =>
      match readVar ws (layer_name ++ "/kernel") vars_group.var0 with
      | Except.error e => Except.error e
      | Except.ok ws1 => readVar ws1 (layer_name ++ "/bias") vars_group.var1

/-- The extraction loop over `layer_names` in order (`dense`, `dense_1`,
`dense_2`, `dense_3`); the first raised exception aborts the walk. -/
def traverseLayers (root : List (String × LayerGroup)) : Except Unit WeightSet :=
  match extractLayer root [] "dense" with
  | Except.error e => Except.error e
  | Except.ok ws =>
    match extractLayer root ws "dense_1" with
    | Except.error e => Except.error e
    | Except.ok ws =>
      match extractLayer root ws "dense_2" with
      | Except.error e => Except.error e
      | Except.ok ws => extractLayer root ws "dense_3"

/-- `extract_h5_weights`: open the container (an open failure raises,
uncaught), then inside the `try` block index `f['layers']` (a missing group
raises `KeyError`, caught, returning `None`) and run the extraction loop
(any exception caught, returning `None`). -/
def extract_h5_weights (src : H5Source) : Except Unit (Option WeightSet) :=
  match src with
  | H5Source.unopenable => Except.error ()
  | H5Source.opened f =>
    match f.layers with
    | none => Except.ok none
    | some layers_root =>
      match traverseLayers layers_root with
      | Except.ok weights => Except.ok (some weights)
      | Except.error _ => Except.ok none

/-- The fixed 8-slot write order of the Packer. -/
def weight_order : List String :=
  ["dense/kernel", "dense/bias",
   "dense_1/kernel", "dense_1/bias",
   "dense_2/kernel", "dense_2/bias",
   "dense_3/kernel", "dense_3/bias"]

/-- One manifest entry recorded per written tensor. -/
structure WeightSpecEntry where
  name : String
  shape : List Nat
  dtype : String
deriving DecidableEq

/-- One iteration of the Packer loop: if the slot is present, cast to
float32, append its raw bytes and record its spec; otherwise leave the
accumulator unchanged. -/
def packStep (weights : WeightSet) (acc : List Nat × List WeightSpecEntry)
    (weight_name : String) : List Nat × List WeightSpecEntry :=
  match dictLookup weights weight_name with
  | some t =>
    let weight_data := astype_float32 t
    (acc.1 ++ tensorBytes weight_data,
     acc.2 ++ [⟨weight_name, weight_data.shape, "float32"⟩])
  | none => acc

/-- The Packer loop over `weight_order` with empty initial accumulator. -/
def packLoop (weights : WeightSet) : List Nat × List WeightSpecEntry :=
  weight_order.foldl (packStep weights) ([], [])

/-- The bytes written to `group1-shard1of1.bin`. -/
def packBytes (weights : WeightSet) : List Nat := (packLoop weights).1

/-- The WeightSpec list returned by the Packer. -/
def packSpecs (weights : WeightSet) : List WeightSpecEntry := (packLoop weights).2

/-- Filesystem state: existing directories and file contents. -/
structure FS where
  dirs : List String
  files : List (String × List Nat)
deriving DecidableEq

/-- Writing a file: any previous entry at the path is dropped and the new
content recorded (truncate-and-write of `open(path, 'wb')`). -/
def setFile : List (String × List Nat) → String → List Nat → List (String × List Nat)
  | [], path, content => [(path, content)]
  | (k, v) :: rest, path, content =>
    if k = path then setFile rest path content
    else (k, v) :: setFile rest path content

/-- `create_tfjs_weights`: open `<output_path>/group1-shard1of1.bin` for
writing — which fails if the directory is absent and truncates any existing
file — then run the Packer loop and return the spec list.  The function
itself never creates a directory. -/
def create_tfjs_weights (fs : FS) (weights : WeightSet) (output_path : String) :
    Except Unit (FS × List WeightSpecEntry) :=
  let bin_path := output_path ++ "/group1-shard1of1.bin"
  if output_path ∈ fs.dirs then
    Except.ok ({ dirs := fs.dirs, files := setFile fs.files bin_path (packBytes weights) },
               packSpecs weights)
  else
    Except.error ()

/-- `os.makedirs(p, exist_ok=True)`: create the directory if absent, no
error if it already exists; file contents untouched. -/
def os_makedirs (fs : FS) (p : String) : FS :=
  if p ∈ fs.dirs then fs else { dirs := fs.dirs ++ [p], files := fs.files }

/-- The world outside the script: which source paths exist, and what
`h5py.File` finds at each path. -/
structure Env where
  pathExists : String → Bool
  file : String → H5Source

/-- The hardcoded source path of the ddpg job. -/
def ddpgPath : String :=
  "/Users/badrbouchabchoub/Downloads/Negotiator/RL/batna_RL_badr 2/best_actor_ddpg.weights.h5"

/-- The hardcoded source path of the td3 job. -/
def td3Path : String :=
  "/Users/badrbouchabchoub/Downloads/Negotiator/RL/batna_RL_badr 2/best_actor.weights.h5"

/-- The hardcoded source path of the sac job. -/
def sacPath : String :=
  "/Users/badrbouchabchoub/Downloads/Negotiator/RL/batna_RL_badr 2/best_actor_sac.weights.h5"

/-- The hardcoded model list of `main`. -/
def models : List (String × String) :=
  [("ddpg", ddpgPath), ("td3", td3Path), ("sac", sacPath)]

/-- The hardcoded base output path. -/
def base_path : String :=
  "/Users/badrbouchabchoub/Downloads/Negotiator/Negotiatior/public/models"

/-- The per-model output directory `os.path.join(base_path, model_name)`. -/
def outDir (model_name : String) : String := base_path ++ "/" ++ model_name

/-- The per-model binary path `<outDir>/group1-shard1of1.bin`. -/
def binFile (model_name : String) : String := outDir model_name ++ "/group1-shard1of1.bin"

/-- One iteration of the driver loop: `continue` when the source path is
missing; run the Extractor, propagating an uncaught exception; `continue`
when it returned `None`; otherwise `os.makedirs` the output directory and
run the Packer, propagating an uncaught exception. -/
def processJob (env : Env) (fs : FS) (job : String × String) : Except Unit FS :=
  if env.pathExists job.2 then
    match extract_h5_weights (env.file job.2) with
    | Except.error e => Except.error e
    | Except.ok none => Except.ok fs
    | Except.ok (some weights) =>
      let output_path := outDir job.1
      let fs1 := os_makedirs fs output_path
      match create_tfjs_weights fs1 weights output_path with
      | Except.error e => Except.error e
      | Except.ok (fs2, _weight_specs) => Except.ok fs2
  else Except.ok fs

/-- The driver: the loop of the source `main` function over the three hardcoded jobs, in order;
an uncaught exception in one iteration aborts the rest. -/
def mainDriver (env : Env) (fs : FS) : Except Unit FS :=
  match processJob env fs ("ddpg", ddpgPath) with
  | Except.error e => Except.error e
  | Except.ok fs =>
    match processJob env fs ("td3", td3Path) with
    | Except.error e => Except.error e
    | Except.ok fs => processJob env fs ("sac", sacPath)

/-- Tensors actually written by the Packer, in write order. -/
def writtenTensors (weights : WeightSet) : List Tensor :=
  weight_order.filterMap (fun n => dictLookup weights n)

/-- Concatenation of the serialised bytes of a tensor list (used to state
contiguity of the packed output). -/
def bytesConcat : List Tensor → List Nat
  | [] => []
  | t :: rest => tensorBytes (astype_float32 t) ++ bytesConcat rest

/-- Sequential readback of a byte stream: for each element count, decode
that many 32-bit words and continue after the consumed bytes — i.e. each
tensor is read at the offset equal to the running sum of the byte sizes of
the tensors before it. -/
def readTensors : List Nat → List Nat → List (List Nat)
  | _, [] => []
  | bytes, c :: cs => decodeWords (bytes.take (4 * c)) :: readTensors (bytes.drop (4 * c)) cs

/-- The node at `layers/<name>/vars/0`, if every link on the path exists. -/
def vars0At (root : List (String × LayerGroup)) (name : String) : Option Node :=
  match dictLookup root name with
  | none => none
  | some lg =>
    match lg.vars with
    | none => none
    | some vg => vg.var0

/-- The node at `layers/<name>/vars/1`, if every link on the path exists. -/
def vars1At (root : List (String × LayerGroup)) (name : String) : Option Node :=
  match dictLookup root name with
  | none => none
  | some lg =>
    match lg.vars with
    | none => none
    | some vg => vg.var1

/-- Dictionary entries contributed by one optional var node. -/
def nodeEntries (key : String) : Option Node → WeightSet
  | some (Node.dataset t) => [(key, t)]
  | _ => []

/-- Dictionary entries contributed by one layer of the extraction loop. -/
def layerEntries (root : List (String × LayerGroup)) (name : String) : WeightSet :=
  nodeEntries (name ++ "/kernel") (vars0At root name) ++
  nodeEntries (name ++ "/bias") (vars1At root name)

/-- No reachable var node of this layer raises when read. -/
def layerGood (root : List (String × LayerGroup)) (name : String) : Prop :=
  vars0At root name ≠ some Node.corrupt ∧ vars1At root name ≠ some Node.corrupt

/-- The extraction outcome the driver bases its decisions on for one job:
the packed bytes when the path exists and extraction returns a dictionary,
`none` when the job is skipped. -/
def jobExpected (env : Env) (job : String × String) : Option (List Nat) :=
  if env.pathExists job.2 then
    match extract_h5_weights (env.file job.2) with
    | Except.ok (some ws) => some (packBytes ws)
    | _ => none
  else none

/-- Environment for the empty-extraction scenario: only the ddpg source
path exists, and it opens to a container whose `layers` group is empty, so
extraction succeeds with zero usable tensors. -/
def envC1 : Env := ⟨fun p => p == ddpgPath, fun _ => H5Source.opened ⟨some []⟩⟩

/-- A container root whose `dense` layer reads fine (kernel and bias) and
whose `dense_1` kernel read raises: traversal fails after tensors were
already read. -/
def rootCut : List (String × LayerGroup) :=
  [("dense", ⟨some ⟨some (Node.dataset ⟨[1], [7]⟩), some (Node.dataset ⟨[1], [8]⟩)⟩⟩),
   ("dense_1", ⟨some ⟨some Node.corrupt, none⟩⟩)]

/-- Environment in which the ddpg and sac source paths exist, the ddpg
container fails to open, and the sac container is fine. -/
def envC3bad : Env :=
  ⟨fun p => p == ddpgPath || p == sacPath,
   fun p => if p == sacPath then H5Source.opened ⟨some []⟩ else H5Source.unopenable⟩

/-- Same world as `envC3bad` except that the ddpg source path is absent, so
only the sac job runs. -/
def envC3ok : Env :=
  ⟨fun p => p == sacPath,
   fun p => if p == sacPath then H5Source.opened ⟨some []⟩ else H5Source.unopenable⟩

/-- Environment in which no container open ever raises: only the sac
source path exists, and every path opens to a container with an empty
`layers` group. -/
def envNoOpenFail : Env := ⟨fun p => p == sacPath, fun _ => H5Source.opened ⟨some []⟩⟩

/-- A WeightSet holding all eight slots except the `dense_2` pair, with
distinguishable one-element tensors. -/
def wsSix : WeightSet :=
  [("dense/kernel", ⟨[1], [10]⟩), ("dense/bias", ⟨[1], [11]⟩),
   ("dense_1/kernel", ⟨[1], [12]⟩), ("dense_1/bias", ⟨[1], [13]⟩),
   ("dense_3/kernel", ⟨[1], [16]⟩), ("dense_3/bias", ⟨[1], [17]⟩)]

/-- The WeightSet of the worked example: `dense/kernel` of shape `(4,3)`
and `dense/bias` of shape `(3,)`, and nothing else. -/
def wsEx : WeightSet :=
  [("dense/kernel", ⟨[4, 3], List.range 12⟩), ("dense/bias", ⟨[3], [0, 1, 2]⟩)]

/-- A WeightSet whose tensor holds an element value beyond 32 bits, to
exercise the float32 cast during round-trip. -/
def wsRound : WeightSet := [("dense/kernel", ⟨[2], [1, 4294967301]⟩)]

/-- A container root with a partial `dense` layer (kernel only) and a
`dense_2` layer with no `vars` subgroup. -/
def rootW : List (String × LayerGroup) :=
  [("dense", ⟨some ⟨some (Node.dataset ⟨[1], [5]⟩), none⟩⟩), ("dense_2", ⟨none⟩)]

/-- The WeightSet extracted from `rootW`. -/
def wsW : WeightSet := [("dense/kernel", ⟨[1], [5]⟩)]

/-- Two representations of the same dictionary: `wsDet2` carries a
shadowed duplicate entry that lookup never reaches. -/
def wsDet1 : WeightSet := [("dense/kernel", ⟨[1], [3]⟩), ("junk", ⟨[1], [4]⟩)]

/-- See `wsDet1`. -/
def wsDet2 : WeightSet :=
  [("dense/kernel", ⟨[1], [3]⟩), ("junk", ⟨[1], [4]⟩), ("junk", ⟨[1], [9]⟩)]

/-- Whether the whole run returned normally (no uncaught exception). -/
def runsOk (env : Env) : Bool :=
  match mainDriver env ⟨[], []⟩ with
  | Except.ok _ => true
  | Except.error _ => false

/-- The file map left behind by a run that started from an empty
filesystem (empty when the run aborted). -/
def finalFiles (env : Env) : List (String × List Nat) :=
  match mainDriver env ⟨[], []⟩ with
  | Except.ok fs => fs.files
  | Except.error _ => []

/-- Taking exactly the length of the left part of an append returns it. -/
lemma take_append_len {α : Type} (l r : List α) : (l ++ r).take l.length = l := by
  induction l with
  | nil => simp
  | cons a l ih => simp [ih]

/-- Dropping exactly the length of the left part of an append returns the
right part. -/
lemma drop_append_len {α : Type} (l r : List α) : (l ++ r).drop l.length = r := by
  induction l with
  | nil => simp
  | cons a l ih => simp [ih]

/-- Serialisation produces four bytes per element. -/
lemma wordsBytes_length (l : List Nat) : (wordsBytes l).length = 4 * l.length := by
  induction l with
  | nil => rfl
  | cons w rest ih => simp [wordsBytes, wordBytesLE, ih]; omega

/-- The cast preserves shape. -/
lemma astype_shape (t : Tensor) : (astype_float32 t).shape = t.shape := rfl

/-- The cast preserves the element count. -/
lemma astype_data_length (t : Tensor) : (astype_float32 t).data.length = t.data.length := by
  simp [astype_float32]

/-- Reducing to a 32-bit word twice is the same as once. -/
lemma word32_idem (w : Nat) : word32 (word32 w) = word32 w := by
  unfold word32; omega

/-- Mapping the 32-bit reduction over an already reduced list changes
nothing. -/
lemma map_word32_idem (l : List Nat) : (l.map word32).map word32 = l.map word32 := by
  induction l with
  | nil => rfl
  | cons w rest ih => simp only [List.map_cons, word32_idem, ih]

/-- Decoding the four little-endian bytes of a word yields its 32-bit
reduction and leaves the rest of the stream to decode. -/
lemma decodeWords_wordBytes (w : Nat) (rest : List Nat) :
    decodeWords (wordBytesLE w ++ rest) = word32 w :: decodeWords rest := by
  have h : w % 256 + 256 * (w / 256 % 256) + 65536 * (w / 65536 % 256) +
      16777216 * (w / 16777216 % 256) = word32 w := by
    unfold word32; omega
  simp only [wordBytesLE, List.cons_append, List.nil_append, decodeWords, h,
    List.append_eq]

/-- Decoding an encoded element list recovers the 32-bit reductions. -/
lemma decode_wordsBytes (l : List Nat) : decodeWords (wordsBytes l) = l.map word32 := by
  induction l with
  | nil => rfl
  | cons w rest ih => simp only [wordsBytes, decodeWords_wordBytes, ih, List.map_cons]

/-- Decoding the serialised bytes of a cast tensor recovers its element
list exactly. -/
lemma decode_tensorBytes (t : Tensor) :
    decodeWords (tensorBytes (astype_float32 t)) = (astype_float32 t).data := by
  simp only [tensorBytes, decode_wordsBytes, astype_float32, map_word32_idem]

/-- Unfolding of the Packer loop: starting from any accumulator, the loop
appends the concatenated bytes of the present tensors in slot order and
one spec entry per present tensor in the same order. -/
lemma packStep_fold (ws : WeightSet) (order : List String) (b : List Nat)
    (s : List WeightSpecEntry) :
    order.foldl (packStep ws) (b, s) =
      (b ++ bytesConcat (order.filterMap (fun n => dictLookup ws n)),
       s ++ order.filterMap (fun n => (dictLookup ws n).map
         (fun t => ⟨n, (astype_float32 t).shape, "float32"⟩))) := by
  induction order generalizing b s with
  | nil => simp [bytesConcat]
  | cons n rest ih =>
    cases h : dictLookup ws n with
    | none => simp [List.foldl_cons, packStep, h, List.filterMap_cons, ih]
    | some t =>
      simp [List.foldl_cons, packStep, h, List.filterMap_cons, ih, bytesConcat,
        List.append_assoc]

/-- The packed bytes are the contiguous concatenation of the written
tensors' bytes. -/
lemma packBytes_eq (ws : WeightSet) : packBytes ws = bytesConcat (writtenTensors ws) := by
  have h := packStep_fold ws weight_order [] []
  simp only [packBytes, packLoop, writtenTensors]
  rw [h]
  simp

/-- The returned specs are one entry per present slot, in slot order. -/
lemma packSpecs_eq (ws : WeightSet) :
    packSpecs ws = weight_order.filterMap (fun n => (dictLookup ws n).map
      (fun t => ⟨n, (astype_float32 t).shape, "float32"⟩)) := by
  have h := packStep_fold ws weight_order [] []
  simp only [packSpecs, packLoop]
  rw [h]
  simp

/-- Projecting the names out of the spec characterisation gives the
filtered slot order. -/
lemma specs_names_filter (ws : WeightSet) (order : List String) :
    (order.filterMap (fun n => (dictLookup ws n).map
      (fun t => (⟨n, (astype_float32 t).shape, "float32"⟩ : WeightSpecEntry)))).map
        WeightSpecEntry.name =
      order.filter (fun n => (dictLookup ws n).isSome) := by
  induction order with
  | nil => rfl
  | cons n rest ih => cases h : dictLookup ws n <;> simp [h, ih]

/-- Byte length of a concatenation: four bytes per element of each tensor. -/
lemma bytesConcat_length (ts : List Tensor) :
    (bytesConcat ts).length = (ts.map (fun t => 4 * t.data.length)).sum := by
  induction ts with
  | nil => rfl
  | cons t rest ih =>
    simp [bytesConcat, tensorBytes, wordsBytes_length, astype_data_length, ih]

/-- Sequential readback of a concatenation at the element counts of its
tensors recovers every cast tensor's element list. -/
lemma readTensors_bytesConcat (ts : List Tensor) :
    readTensors (bytesConcat ts) (ts.map (fun t => t.data.length)) =
      ts.map (fun t => (astype_float32 t).data) := by
  induction ts with
  | nil => rfl
  | cons t rest ih =>
    have hlen : (tensorBytes (astype_float32 t)).length = 4 * t.data.length := by
      simp [tensorBytes, wordsBytes_length, astype_data_length]
    simp only [bytesConcat, List.map_cons, readTensors]
    rw [← hlen, take_append_len, drop_append_len, decode_tensorBytes, ih]

/-- When no reachable var node of the layer raises, the loop iteration
succeeds and appends exactly this layer's entries. -/
lemma extractLayer_ok_of_good (root : List (String × LayerGroup)) (ws : WeightSet)
    (name : String) (h : layerGood root name) :
    extractLayer root ws name = Except.ok (ws ++ layerEntries root name) := by
  obtain ⟨h0, h1⟩ := h
  cases hd : dictLookup root name with
  | none => simp [extractLayer, hd, layerEntries, vars0At, vars1At, nodeEntries]
  | some lg =>
    cases hv : lg.vars with
    | none => simp [extractLayer, hd, hv, layerEntries, vars0At, vars1At, nodeEntries]
    | some vg =>
      simp only [layerGood, vars0At, vars1At, hd, hv] at h0 h1
      cases hn0 : vg.var0 with
      | none =>
        cases hn1 : vg.var1 with
        | none =>
          simp [extractLayer, hd, hv, hn0, hn1, readVar, layerEntries, vars0At,
            vars1At, nodeEntries]
        | some n1 =>
          cases n1 with
          | dataset t1 =>
            simp [extractLayer, hd, hv, hn0, hn1, readVar, readNode, layerEntries,
              vars0At, vars1At, nodeEntries]
          | corrupt => rw [hn1] at h1; exact absurd rfl h1
      | some n0 =>
        cases n0 with
        | dataset t0 =>
          cases hn1 : vg.var1 with
          | none =>
            simp [extractLayer, hd, hv, hn0, hn1, readVar, readNode, layerEntries,
              vars0At, vars1At, nodeEntries]
          | some n1 =>
            cases n1 with
            | dataset t1 =>
              simp [extractLayer, hd, hv, hn0, hn1, readVar, readNode, layerEntries,
                vars0At, vars1At, nodeEntries, List.append_assoc]
            | corrupt => rw [hn1] at h1; exact absurd rfl h1
        | corrupt => rw [hn0] at h0; exact absurd rfl h0

/-- If a loop iteration succeeds then no reachable var node of the layer
raises, and the result appends exactly this layer's entries. -/
lemma extractLayer_ok_inv (root : List (String × LayerGroup)) (ws : WeightSet)
    (name : String) (ws' : WeightSet)
    (h : extractLayer root ws name = Except.ok ws') :
    layerGood root name ∧ ws' = ws ++ layerEntries root name := by
  cases hd : dictLookup root name with
  | none =>
    simp [extractLayer, hd] at h
    simp [layerGood, vars0At, vars1At, hd, layerEntries, nodeEntries, h.symm]
  | some lg =>
    cases hv : lg.vars with
    | none =>
      simp [extractLayer, hd, hv] at h
      simp [layerGood, vars0At, vars1At, hd, hv, layerEntries, nodeEntries, h.symm]
    | some vg =>
      cases hn0 : vg.var0 with
      | none =>
        cases hn1 : vg.var1 with
        | none =>
          simp [extractLayer, hd, hv, hn0, hn1, readVar] at h
          simp [layerGood, vars0At, vars1At, hd, hv, hn0, hn1, layerEntries,
            nodeEntries, h.symm]
        | some n1 =>
          cases n1 with
          | dataset t1 =>
            simp [extractLayer, hd, hv, hn0, hn1, readVar, readNode] at h
            simp [layerGood, vars0At, vars1At, hd, hv, hn0, hn1, layerEntries,
              nodeEntries, h.symm]
          | corrupt =>
            simp [extractLayer, hd, hv, hn0, hn1, readVar, readNode] at h
      | some n0 =>
        cases n0 with
        | dataset t0 =>
          cases hn1 : vg.var1 with
          | none =>
            simp [extractLayer, hd, hv, hn0, hn1, readVar, readNode] at h
            simp [layerGood, vars0At, vars1At, hd, hv, hn0, hn1, layerEntries,
              nodeEntries, h.symm]
          | some n1 =>
            cases n1 with
            | dataset t1 =>
              simp [extractLayer, hd, hv, hn0, hn1, readVar, readNode] at h
              simp [layerGood, vars0At, vars1At, hd, hv, hn0, hn1, layerEntries,
                nodeEntries, h.symm, List.append_assoc]
            | corrupt =>
              simp [extractLayer, hd, hv, hn0, hn1, readVar, readNode] at h
        | corrupt =>
          simp [extractLayer, hd, hv, hn0, readVar, readNode] at h

/-- A successful traversal yields exactly the concatenated per-layer
entries in loop order, and certifies that no reachable var node raised. -/
lemma traverseLayers_ok_inv (root : List (String × LayerGroup)) (ws : WeightSet)
    (h : traverseLayers root = Except.ok ws) :
    ws = layerEntries root "dense" ++ layerEntries root "dense_1" ++
         layerEntries root "dense_2" ++ layerEntries root "dense_3" ∧
    layerGood root "dense" ∧ layerGood root "dense_1" ∧
    layerGood root "dense_2" ∧ layerGood root "dense_3" := by
  cases h1 : extractLayer root [] "dense" with
  | error e => simp [traverseLayers, h1] at h
  | ok ws1 =>
    cases h2 : extractLayer root ws1 "dense_1" with
    | error e => simp [traverseLayers, h1, h2] at h
    | ok ws2 =>
      cases h3 : extractLayer root ws2 "dense_2" with
      | error e => simp [traverseLayers, h1, h2, h3] at h
      | ok ws3 =>
        simp only [traverseLayers, h1, h2, h3] at h
        obtain ⟨g1, e1⟩ := extractLayer_ok_inv root [] "dense" ws1 h1
        obtain ⟨g2, e2⟩ := extractLayer_ok_inv root ws1 "dense_1" ws2 h2
        obtain ⟨g3, e3⟩ := extractLayer_ok_inv root ws2 "dense_2" ws3 h3
        obtain ⟨g4, e4⟩ := extractLayer_ok_inv root ws3 "dense_3" ws h
        subst e1 e2 e3 e4
        exact ⟨by simp [List.append_assoc], g1, g2, g3, g4⟩

/-- When no reachable var node of any of the four layers raises, the
traversal succeeds with the concatenated per-layer entries. -/
lemma traverseLayers_ok_of_good (root : List (String × LayerGroup))
    (h : ∀ name ∈ layer_names, layerGood root name) :
    traverseLayers root = Except.ok
      (layerEntries root "dense" ++ layerEntries root "dense_1" ++
       layerEntries root "dense_2" ++ layerEntries root "dense_3") := by
  have g1 := h "dense" (by simp [layer_names])
  have g2 := h "dense_1" (by simp [layer_names])
  have g3 := h "dense_2" (by simp [layer_names])
  have g4 := h "dense_3" (by simp [layer_names])
  have e1 := extractLayer_ok_of_good root [] "dense" g1
  have e2 := extractLayer_ok_of_good root ([] ++ layerEntries root "dense") "dense_1" g2
  have e3 := extractLayer_ok_of_good root
    (([] ++ layerEntries root "dense") ++ layerEntries root "dense_1") "dense_2" g3
  have e4 := extractLayer_ok_of_good root
    ((([] ++ layerEntries root "dense") ++ layerEntries root "dense_1") ++
      layerEntries root "dense_2") "dense_3" g4
  simp only [traverseLayers, e1, e2, e3, e4]
  simp [List.append_assoc]

/-- Key membership in the entries of one var node. -/
lemma mem_nodeEntries_keys (k key : String) (o : Option Node) :
    k ∈ (nodeEntries key o).map Prod.fst ↔
      (∃ t, o = some (Node.dataset t)) ∧ k = key := by
  cases o with
  | none => simp [nodeEntries]
  | some n =>
    cases n with
    | dataset t =>
      simp only [nodeEntries, List.map_cons, List.map_nil, List.mem_singleton]
      constructor
      · intro h; exact ⟨⟨t, rfl⟩, h⟩
      · rintro ⟨_, h⟩; exact h
    | corrupt => simp [nodeEntries]

/-- Key membership in the entries of one layer. -/
lemma mem_layerEntries_keys (k : String) (root : List (String × LayerGroup))
    (name : String) :
    k ∈ (layerEntries root name).map Prod.fst ↔
      ((∃ t, vars0At root name = some (Node.dataset t)) ∧ k = name ++ "/kernel") ∨
      ((∃ t, vars1At root name = some (Node.dataset t)) ∧ k = name ++ "/bias") := by
  simp only [layerEntries, List.map_append, List.mem_append, mem_nodeEntries_keys]

/-- For a node that is not a raising dataset, holding a readable dataset is
the same as being present. -/
lemma dataset_iff_isSome {o : Option Node} (h : o ≠ some Node.corrupt) :
    (∃ t, o = some (Node.dataset t)) ↔ o.isSome = true := by
  cases o with
  | none => simp
  | some n =>
    cases n with
    | dataset t => simp
    | corrupt => exact absurd rfl h

/-- A successful dictionary lookup comes from an entry of the list. -/
lemma dictLookup_mem {α : Type} (l : List (String × α)) (k : String) (v : α)
    (h : dictLookup l k = some v) : (k, v) ∈ l := by
  induction l with
  | nil => cases h
  | cons p rest ih =>
    obtain ⟨k', v'⟩ := p
    by_cases hk : k = k'
    · subst hk
      simp [dictLookup] at h
      subst h
      exact List.mem_cons_self _ _
    · simp [dictLookup, hk] at h
      exact List.mem_cons_of_mem _ (ih h)

/-- Element counts read off the spec entries agree with the element counts
of the written tensors, provided every tensor of the WeightSet is
well-formed (flat data length equals the product of its shape). -/
lemma specs_prod_eq_counts (ws : WeightSet)
    (hwf : ∀ p ∈ ws, (Prod.snd p).data.length = (Prod.snd p).shape.prod)
    (order : List String) :
    (order.filterMap (fun n => (dictLookup ws n).map
      (fun t => (⟨n, (astype_float32 t).shape, "float32"⟩ : WeightSpecEntry)))).map
        (fun e => e.shape.prod) =
      (order.filterMap (fun n => dictLookup ws n)).map (fun t => t.data.length) := by
  induction order with
  | nil => rfl
  | cons n rest ih =>
    cases h : dictLookup ws n with
    | none => simp [h, ih]
    | some t =>
      have hm := hwf (n, t) (dictLookup_mem ws n t h)
      simp only at hm
      simp only [astype_shape] at ih
      simp [h, ih, astype_shape, hm.symm]

/-- Writing a file sets its content and leaves every other path's content
unchanged. -/
lemma setFile_lookup (files : List (String × List Nat)) (p : String)
    (c : List Nat) (q : String) :
    dictLookup (setFile files p c) q = if q = p then some c else dictLookup files q := by
  induction files with
  | nil => simp [setFile, dictLookup]
  | cons e rest ih =>
    obtain ⟨k, v⟩ := e
    by_cases hk : k = p
    · subst hk
      have hred : setFile ((k, v) :: rest) k c = setFile rest k c := by simp [setFile]
      rw [hred, ih]
      by_cases hq : q = k <;> simp [hq, dictLookup]
    · simp only [setFile, if_neg hk]
      by_cases hq : q = k
      · subst hq
        simp [dictLookup, ih, hk]
      · simp [dictLookup, hq, ih]

/-- `os.makedirs` guarantees the directory afterwards exists. -/
lemma os_makedirs_mem (fs : FS) (p : String) : p ∈ (os_makedirs fs p).dirs := by
  unfold os_makedirs
  by_cases h : p ∈ fs.dirs <;> simp [h]

/-- `os.makedirs` does not touch file contents. -/
lemma os_makedirs_files (fs : FS) (p : String) : (os_makedirs fs p).files = fs.files := by
  unfold os_makedirs
  by_cases h : p ∈ fs.dirs <;> simp [h]

/-- When the output directory exists, the Packer succeeds, writes the
packed bytes at the fixed file name, and returns the spec list. -/
lemma create_ok_of_mem (fs : FS) (ws : WeightSet) (out : String) (h : out ∈ fs.dirs) :
    create_tfjs_weights fs ws out = Except.ok
      ({ dirs := fs.dirs,
         files := setFile fs.files (out ++ "/group1-shard1of1.bin") (packBytes ws) },
       packSpecs ws) := by
  simp [create_tfjs_weights, h]

/-- One driver iteration, for a job whose container open does not raise:
it returns normally, and afterwards the job's binary path holds the packed
bytes of its extraction when the job converted (and its old content
otherwise), while every other path is untouched. -/
lemma processJob_char (env : Env) (fs : FS) (name path : String)
    (h : env.file path ≠ H5Source.unopenable) :
    ∃ fs', processJob env fs (name, path) = Except.ok fs' ∧
      ∀ q, dictLookup fs'.files q =
        if q = binFile name then
          Option.or (jobExpected env (name, path)) (dictLookup fs.files q)
        else dictLookup fs.files q := by
  cases hpe : env.pathExists path with
  | false =>
    refine ⟨fs, by simp [processJob, hpe], ?_⟩
    intro q
    by_cases hq : q = binFile name <;> simp [jobExpected, hpe, hq, Option.or]
  | true =>
    cases hfe : env.file path with
    | unopenable => exact absurd hfe h
    | opened f =>
      cases hl : f.layers with
      | none =>
        refine ⟨fs, ?_, ?_⟩
        · simp [processJob, hpe, hfe, extract_h5_weights, hl]
        · intro q
          by_cases hq : q = binFile name <;>
            simp [jobExpected, hpe, hfe, extract_h5_weights, hl, hq, Option.or]
      | some root =>
        cases htr : traverseLayers root with
        | error e =>
          refine ⟨fs, ?_, ?_⟩
          · simp [processJob, hpe, hfe, extract_h5_weights, hl, htr]
          · intro q
            by_cases hq : q = binFile name <;>
              simp [jobExpected, hpe, hfe, extract_h5_weights, hl, htr, hq, Option.or]
        | ok ws =>
          have hcr := create_ok_of_mem (os_makedirs fs (outDir name)) ws (outDir name)
            (os_makedirs_mem fs (outDir name))
          refine ⟨{ dirs := (os_makedirs fs (outDir name)).dirs,
                    files := setFile (os_makedirs fs (outDir name)).files
                      (outDir name ++ "/group1-shard1of1.bin") (packBytes ws) }, ?_, ?_⟩
          · simp [processJob, hpe, hfe, extract_h5_weights, hl, htr, hcr]
          · intro q
            have hje : jobExpected env (name, path) = some (packBytes ws) := by
              simp [jobExpected, hpe, hfe, extract_h5_weights, hl, htr]
            simp only [os_makedirs_files, setFile_lookup, hje, binFile]
            by_cases hq : q = outDir name ++ "/group1-shard1of1.bin" <;> simp [hq]

/-- C5: the Packer writes tensors strictly in the fixed 8-slot order
`dense/kernel, dense/bias, dense_1/kernel, dense_1/bias, dense_2/kernel,
dense_2/bias, dense_3/kernel, dense_3/bias`; a slot absent from the
WeightSet is skipped with no padding bytes and no error, so a WeightSet
lacking the `dense_2` layer produces exactly the remaining 6 tensors,
written contiguously. -/
theorem C5_fixed_order_skip_absent :
    (∀ ws : WeightSet,
      packBytes ws = bytesConcat (writtenTensors ws) ∧
      packSpecs ws = weight_order.filterMap (fun n => (dictLookup ws n).map
        (fun t => ⟨n, (astype_float32 t).shape, "float32"⟩)) ∧
      (packSpecs ws).map WeightSpecEntry.name =
        weight_order.filter (fun n => (dictLookup ws n).isSome)) ∧
    (packSpecs wsSix).map WeightSpecEntry.name =
      ["dense/kernel", "dense/bias", "dense_1/kernel", "dense_1/bias",
       "dense_3/kernel", "dense_3/bias"] ∧
    packBytes wsSix =
      tensorBytes (astype_float32 ⟨[1], [10]⟩) ++
      tensorBytes (astype_float32 ⟨[1], [11]⟩) ++
      tensorBytes (astype_float32 ⟨[1], [12]⟩) ++
      tensorBytes (astype_float32 ⟨[1], [13]⟩) ++
      tensorBytes (astype_float32 ⟨[1], [16]⟩) ++
      tensorBytes (astype_float32 ⟨[1], [17]⟩) := by
  refine ⟨fun ws => ⟨packBytes_eq ws, packSpecs_eq ws, ?_⟩, by decide, by decide⟩
  rw [packSpecs_eq]
  exact specs_names_filter ws weight_order

/-- C6: the binary file's byte length is the sum of `4 * element_count`
over the written tensors, and the WeightSpec has one entry per written
tensor, in write order, with that tensor's name, shape and dtype
`float32`; in particular the WeightSet with exactly `dense/kernel` of
shape `(4,3)` and `dense/bias` of shape `(3,)` yields 60 bytes and the
2-entry spec list. -/
theorem C6_byte_length_and_specs :
    (∀ ws : WeightSet,
      (packBytes ws).length =
        ((writtenTensors ws).map (fun t => 4 * t.data.length)).sum ∧
      packSpecs ws = weight_order.filterMap (fun n => (dictLookup ws n).map
        (fun t => ⟨n, (astype_float32 t).shape, "float32"⟩))) ∧
    (packBytes wsEx).length = 60 ∧
    packSpecs wsEx =
      [⟨"dense/kernel", [4, 3], "float32"⟩, ⟨"dense/bias", [3], "float32"⟩] := by
  refine ⟨fun ws => ⟨?_, packSpecs_eq ws⟩, by decide, by decide⟩
  rw [packBytes_eq]
  exact bytesConcat_length (writtenTensors ws)

/-- C7: reading the binary back sequentially — each tensor at the offset
equal to the running sum of the byte sizes of the tensors written before
it, for the element count recorded by its WeightSpec shape — and decoding
little-endian 32-bit words reconstructs exactly the element lists of the
original tensors after the float32 cast. -/
theorem C7_roundtrip (ws : WeightSet)
    (hwf : ∀ p ∈ ws, (Prod.snd p).data.length = (Prod.snd p).shape.prod) :
    readTensors (packBytes ws) ((packSpecs ws).map (fun e => e.shape.prod)) =
      (writtenTensors ws).map (fun t => (astype_float32 t).data) := by
  rw [packBytes_eq, packSpecs_eq, specs_prod_eq_counts ws hwf weight_order]
  exact readTensors_bytesConcat (writtenTensors ws)

/-- Witness for C7 at a concrete WeightSet whose tensor carries an element
value above 32 bits, evaluating both the readback and the cast. -/
theorem C7_roundtrip_witness :
    readTensors (packBytes wsRound) ((packSpecs wsRound).map (fun e => e.shape.prod)) =
      (writtenTensors wsRound).map (fun t => (astype_float32 t).data) ∧
    (writtenTensors wsRound).map (fun t => (astype_float32 t).data) = [[1, 5]] :=
  ⟨C7_roundtrip wsRound (by decide), by decide⟩

/-- C9: the Packer is deterministic — its output depends only on the
dictionary lookups of the WeightSet, so two WeightSets that answer every
lookup identically produce identical bytes, identical specs, and an
identical filesystem effect. -/
theorem C9_packer_deterministic (ws1 ws2 : WeightSet)
    (h : ∀ k, dictLookup ws1 k = dictLookup ws2 k) :
    packLoop ws1 = packLoop ws2 ∧
    ∀ (fs : FS) (out : String),
      create_tfjs_weights fs ws1 out = create_tfjs_weights fs ws2 out := by
  have hfold : ∀ (order : List String) (acc : List Nat × List WeightSpecEntry),
      order.foldl (packStep ws1) acc = order.foldl (packStep ws2) acc := by
    intro order
    induction order with
    | nil => intro acc; rfl
    | cons n rest ih =>
      intro acc
      have hstep : packStep ws1 acc n = packStep ws2 acc n := by
        simp [packStep, h n]
      simp only [List.foldl_cons, hstep, ih]
  have hpl : packLoop ws1 = packLoop ws2 := hfold weight_order ([], [])
  refine ⟨hpl, fun fs out => ?_⟩
  simp [create_tfjs_weights, packBytes, packSpecs, hpl]

/-- Witness for C9: two different list representations of the same
dictionary (the second carries a shadowed duplicate) pack identically. -/
theorem C9_packer_deterministic_witness : packLoop wsDet1 = packLoop wsDet2 :=
  (C9_packer_deterministic wsDet1 wsDet2 (fun k => by
    by_cases h1 : k = "dense/kernel"
    · subst h1; rfl
    · by_cases h2 : k = "junk"
      · subst h2; rfl
      · simp [wsDet1, wsDet2, dictLookup, h1, h2])).1

/-- C10: invoked on an empty WeightSet (in an existing output directory,
as the driver guarantees), the Packer still writes `group1-shard1of1.bin`
with content of length 0 and returns the empty WeightSpec list, with no
error. -/
theorem C10_empty_weightset (fs : FS) (output_path : String)
    (h : output_path ∈ fs.dirs) :
    create_tfjs_weights fs [] output_path = Except.ok
      ({ dirs := fs.dirs,
         files := setFile fs.files (output_path ++ "/group1-shard1of1.bin") [] }, []) ∧
    dictLookup (setFile fs.files (output_path ++ "/group1-shard1of1.bin") [])
      (output_path ++ "/group1-shard1of1.bin") = some [] := by
  exact ⟨create_ok_of_mem fs [] output_path h, by simp [setFile_lookup]⟩

/-- Witness for C10, overwriting a pre-existing non-empty binary with the
empty one. -/
theorem C10_empty_weightset_witness :
    create_tfjs_weights ⟨["/tmp/out"], [("/tmp/out/group1-shard1of1.bin", [1, 2, 3])]⟩
        [] "/tmp/out" = Except.ok
      ({ dirs := ["/tmp/out"],
         files := setFile [("/tmp/out/group1-shard1of1.bin", [1, 2, 3])]
           ("/tmp/out" ++ "/group1-shard1of1.bin") [] }, []) ∧
    dictLookup (setFile [("/tmp/out/group1-shard1of1.bin", [1, 2, 3])]
        ("/tmp/out" ++ "/group1-shard1of1.bin") [])
      ("/tmp/out" ++ "/group1-shard1of1.bin") = some [] :=
  C10_empty_weightset ⟨["/tmp/out"], [("/tmp/out/group1-shard1of1.bin", [1, 2, 3])]⟩
    "/tmp/out" (by decide)

/-- Counterexample to C4 as stated: invoked with an absent output
directory, the Packer does not create it — opening the binary for writing
raises, and no filesystem state is produced. -/
theorem C4_counterexample :
    create_tfjs_weights ⟨[], []⟩ [] "/tmp/out" = Except.error () ∧
    ∀ (fs' : FS) (specs : List WeightSpecEntry),
      create_tfjs_weights ⟨[], []⟩ [] "/tmp/out" ≠ Except.ok (fs', specs) := by
  refine ⟨rfl, fun fs' specs h => ?_⟩
  rw [show create_tfjs_weights ⟨[], []⟩ [] "/tmp/out" = Except.error () from rfl] at h
  cases h

/-- C4 amended: the output directory is created by the driver (before the
Packer runs), not by the Packer; given an existing output directory the
Packer succeeds and overwrites any existing binary at the fixed name
`group1-shard1of1.bin`, leaving directories and every other file
untouched. -/
theorem C4_packer_overwrite (fs : FS) (weights : WeightSet) (output_path : String)
    (h : output_path ∈ fs.dirs) :
    create_tfjs_weights fs weights output_path = Except.ok
      ({ dirs := fs.dirs,
         files := setFile fs.files (output_path ++ "/group1-shard1of1.bin")
           (packBytes weights) }, packSpecs weights) ∧
    dictLookup (setFile fs.files (output_path ++ "/group1-shard1of1.bin")
        (packBytes weights)) (output_path ++ "/group1-shard1of1.bin") =
      some (packBytes weights) ∧
    ∀ q, q ≠ output_path ++ "/group1-shard1of1.bin" →
      dictLookup (setFile fs.files (output_path ++ "/group1-shard1of1.bin")
        (packBytes weights)) q = dictLookup fs.files q := by
  refine ⟨create_ok_of_mem fs weights output_path h, by simp [setFile_lookup], ?_⟩
  intro q hq
  simp [setFile_lookup, hq]

/-- Witness for the amended C4: a directory that already holds a stale
binary gets it overwritten with the newly packed bytes. -/
theorem C4_packer_overwrite_witness :
    create_tfjs_weights ⟨["o"], [("o/group1-shard1of1.bin", [9, 9, 9])]⟩
        [("dense/bias", ⟨[1], [2]⟩)] "o" = Except.ok
      ({ dirs := ["o"],
         files := setFile [("o/group1-shard1of1.bin", [9, 9, 9])]
           ("o" ++ "/group1-shard1of1.bin")
           (packBytes [("dense/bias", ⟨[1], [2]⟩)]) },
       packSpecs [("dense/bias", ⟨[1], [2]⟩)]) ∧
    dictLookup (setFile [("o/group1-shard1of1.bin", [9, 9, 9])]
        ("o" ++ "/group1-shard1of1.bin") (packBytes [("dense/bias", ⟨[1], [2]⟩)]))
      ("o" ++ "/group1-shard1of1.bin") = some (packBytes [("dense/bias", ⟨[1], [2]⟩)]) :=
  ⟨(C4_packer_overwrite ⟨["o"], [("o/group1-shard1of1.bin", [9, 9, 9])]⟩
      [("dense/bias", ⟨[1], [2]⟩)] "o" (by decide)).1,
   (C4_packer_overwrite ⟨["o"], [("o/group1-shard1of1.bin", [9, 9, 9])]⟩
      [("dense/bias", ⟨[1], [2]⟩)] "o" (by decide)).2.1⟩

/-- Counterexample to C2 as stated: a malformed container raises at open
(`h5py.File` is outside the `try` block), so the Extractor raises instead
of returning the absence-signal `None`. -/
theorem C2_counterexample :
    extract_h5_weights H5Source.unopenable = Except.error () ∧
    extract_h5_weights H5Source.unopenable ≠ Except.ok none := by
  refine ⟨rfl, fun h => ?_⟩
  rw [show extract_h5_weights H5Source.unopenable = Except.error () from rfl] at h
  cases h

/-- C2 amended: any exception raised inside the guarded extraction walk —
including a missing `layers` group — makes the Extractor return `None`,
and never a partial WeightSet holding the tensors read before the
exception (`rootCut` reads two `dense` tensors before its `dense_1`
kernel raises, and still yields `None`); an exception while opening the
container, however, propagates to the caller. -/
theorem C2_caught_traversal_exceptions :
    (∀ (f : H5File) (root : List (String × LayerGroup)), f.layers = some root →
      traverseLayers root = Except.error () →
      extract_h5_weights (H5Source.opened f) = Except.ok none) ∧
    (∀ f : H5File, f.layers = none →
      extract_h5_weights (H5Source.opened f) = Except.ok none) ∧
    traverseLayers rootCut = Except.error () ∧
    extract_h5_weights (H5Source.opened ⟨some rootCut⟩) = Except.ok none ∧
    extract_h5_weights H5Source.unopenable = Except.error () := by
  refine ⟨?_, ?_, rfl, rfl, rfl⟩
  · intro f root hr ht
    simp [extract_h5_weights, hr, ht]
  · intro f hr
    simp [extract_h5_weights, hr]

/-- Witness for the amended C2 at the container `rootCut`. -/
theorem C2_caught_traversal_exceptions_witness :
    extract_h5_weights (H5Source.opened ⟨some rootCut⟩) = Except.ok none :=
  C2_caught_traversal_exceptions.1 ⟨some rootCut⟩ rootCut rfl rfl

/-- Key membership in the concatenation of the four per-layer entry
blocks, spelled out over the eight possible keys. -/
lemma mem_keys_four (root : List (String × LayerGroup)) (k : String) :
    k ∈ (layerEntries root "dense" ++ layerEntries root "dense_1" ++
         layerEntries root "dense_2" ++ layerEntries root "dense_3").map Prod.fst ↔
      (((∃ t, vars0At root "dense" = some (Node.dataset t)) ∧ k = "dense" ++ "/kernel") ∨
       ((∃ t, vars1At root "dense" = some (Node.dataset t)) ∧ k = "dense" ++ "/bias")) ∨
      (((∃ t, vars0At root "dense_1" = some (Node.dataset t)) ∧ k = "dense_1" ++ "/kernel") ∨
       ((∃ t, vars1At root "dense_1" = some (Node.dataset t)) ∧ k = "dense_1" ++ "/bias")) ∨
      (((∃ t, vars0At root "dense_2" = some (Node.dataset t)) ∧ k = "dense_2" ++ "/kernel") ∨
       ((∃ t, vars1At root "dense_2" = some (Node.dataset t)) ∧ k = "dense_2" ++ "/bias")) ∨
      (((∃ t, vars0At root "dense_3" = some (Node.dataset t)) ∧ k = "dense_3" ++ "/kernel") ∨
       ((∃ t, vars1At root "dense_3" = some (Node.dataset t)) ∧ k = "dense_3" ++ "/bias")) := by
  simp only [List.map_append, List.mem_append, mem_layerEntries_keys, or_assoc]

/-- C8: for a container whose top-level `layers` group exists and whose
extraction succeeds, the WeightSet holds `<name>/kernel` iff
`layers/<name>/vars/0` is present and `<name>/bias` iff
`layers/<name>/vars/1` is present, for exactly the four fixed layer names;
no other keys appear; and containers whose present nodes all read fine
extract without error no matter which layers or var indices are missing. -/
theorem C8_extractor_keys (f : H5File) (root : List (String × LayerGroup))
    (ws : WeightSet) (hroot : f.layers = some root)
    (hok : extract_h5_weights (H5Source.opened f) = Except.ok (some ws)) :
    (∀ name ∈ layer_names,
      ((name ++ "/kernel") ∈ ws.map Prod.fst ↔ (vars0At root name).isSome = true) ∧
      ((name ++ "/bias") ∈ ws.map Prod.fst ↔ (vars1At root name).isSome = true)) ∧
    (∀ k ∈ ws.map Prod.fst, ∃ name, name ∈ layer_names ∧
      (k = name ++ "/kernel" ∨ k = name ++ "/bias")) ∧
    (∀ (g : H5File) (r : List (String × LayerGroup)), g.layers = some r →
      (∀ name ∈ layer_names, layerGood r name) →
      ∃ ws', extract_h5_weights (H5Source.opened g) = Except.ok (some ws')) := by
  have htr : traverseLayers root = Except.ok ws := by
    cases htr' : traverseLayers root with
    | ok w =>
      simp only [extract_h5_weights, hroot, htr', Except.ok.injEq,
        Option.some.injEq] at hok
      rw [hok]
    | error e => simp [extract_h5_weights, hroot, htr'] at hok
  obtain ⟨hws, g1, g2, g3, g4⟩ := traverseLayers_ok_inv root ws htr
  subst hws
  refine ⟨?_, ?_, ?_⟩
  · intro name hname
    simp only [layer_names, List.mem_cons, List.not_mem_nil, or_false] at hname
    rcases hname with rfl | rfl | rfl | rfl
    · constructor
      · rw [mem_keys_four]
        constructor
        · rintro ((⟨h0, hk⟩ | ⟨h0, hk⟩) | (⟨h0, hk⟩ | ⟨h0, hk⟩) |
              (⟨h0, hk⟩ | ⟨h0, hk⟩) | (⟨h0, hk⟩ | ⟨h0, hk⟩)) <;>
            first
            | (obtain ⟨t, ht⟩ := h0; rw [ht]; rfl)
            | exact absurd hk (by decide)
        · intro hs
          obtain ⟨t, ht⟩ := (dataset_iff_isSome g1.1).mpr hs
          exact Or.inl (Or.inl ⟨⟨t, ht⟩, rfl⟩)
      · rw [mem_keys_four]
        constructor
        · rintro ((⟨h0, hk⟩ | ⟨h0, hk⟩) | (⟨h0, hk⟩ | ⟨h0, hk⟩) |
              (⟨h0, hk⟩ | ⟨h0, hk⟩) | (⟨h0, hk⟩ | ⟨h0, hk⟩)) <;>
            first
            | (obtain ⟨t, ht⟩ := h0; rw [ht]; rfl)
            | exact absurd hk (by decide)
        · intro hs
          obtain ⟨t, ht⟩ := (dataset_iff_isSome g1.2).mpr hs
          exact Or.inl (Or.inr ⟨⟨t, ht⟩, rfl⟩)
    · constructor
      · rw [mem_keys_four]
        constructor
        · rintro ((⟨h0, hk⟩ | ⟨h0, hk⟩) | (⟨h0, hk⟩ | ⟨h0, hk⟩) |
              (⟨h0, hk⟩ | ⟨h0, hk⟩) | (⟨h0, hk⟩ | ⟨h0, hk⟩)) <;>
            first
            | (obtain ⟨t, ht⟩ := h0; rw [ht]; rfl)
            | exact absurd hk (by decide)
        · intro hs
          obtain ⟨t, ht⟩ := (dataset_iff_isSome g2.1).mpr hs
          exact Or.inr (Or.inl (Or.inl ⟨⟨t, ht⟩, rfl⟩))
      · rw [mem_keys_four]
        constructor
        · rintro ((⟨h0, hk⟩ | ⟨h0, hk⟩) | (⟨h0, hk⟩ | ⟨h0, hk⟩) |
              (⟨h0, hk⟩ | ⟨h0, hk⟩) | (⟨h0, hk⟩ | ⟨h0, hk⟩)) <;>
            first
            | (obtain ⟨t, ht⟩ := h0; rw [ht]; rfl)
            | exact absurd hk (by decide)
        · intro hs
          obtain ⟨t, ht⟩ := (dataset_iff_isSome g2.2).mpr hs
          exact Or.inr (Or.inl (Or.inr ⟨⟨t, ht⟩, rfl⟩))
    · constructor
      · rw [mem_keys_four]
        constructor
        · rintro ((⟨h0, hk⟩ | ⟨h0, hk⟩) | (⟨h0, hk⟩ | ⟨h0, hk⟩) |
              (⟨h0, hk⟩ | ⟨h0, hk⟩) | (⟨h0, hk⟩ | ⟨h0, hk⟩)) <;>
            first
            | (obtain ⟨t, ht⟩ := h0; rw [ht]; rfl)
            | exact absurd hk (by decide)
        · intro hs
          obtain ⟨t, ht⟩ := (dataset_iff_isSome g3.1).mpr hs
          exact Or.inr (Or.inr (Or.inl (Or.inl ⟨⟨t, ht⟩, rfl⟩)))
      · rw [mem_keys_four]
        constructor
        · rintro ((⟨h0, hk⟩ | ⟨h0, hk⟩) | (⟨h0, hk⟩ | ⟨h0, hk⟩) |
              (⟨h0, hk⟩ | ⟨h0, hk⟩) | (⟨h0, hk⟩ | ⟨h0, hk⟩)) <;>
            first
            | (obtain ⟨t, ht⟩ := h0; rw [ht]; rfl)
            | exact absurd hk (by decide)
        · intro hs
          obtain ⟨t, ht⟩ := (dataset_iff_isSome g3.2).mpr hs
          exact Or.inr (Or.inr (Or.inl (Or.inr ⟨⟨t, ht⟩, rfl⟩)))
    · constructor
      · rw [mem_keys_four]
        constructor
        · rintro ((⟨h0, hk⟩ | ⟨h0, hk⟩) | (⟨h0, hk⟩ | ⟨h0, hk⟩) |
              (⟨h0, hk⟩ | ⟨h0, hk⟩) | (⟨h0, hk⟩ | ⟨h0, hk⟩)) <;>
            first
            | (obtain ⟨t, ht⟩ := h0; rw [ht]; rfl)
            | exact absurd hk (by decide)
        · intro hs
          obtain ⟨t, ht⟩ := (dataset_iff_isSome g4.1).mpr hs
          exact Or.inr (Or.inr (Or.inr (Or.inl ⟨⟨t, ht⟩, rfl⟩)))
      · rw [mem_keys_four]
        constructor
        · rintro ((⟨h0, hk⟩ | ⟨h0, hk⟩) | (⟨h0, hk⟩ | ⟨h0, hk⟩) |
              (⟨h0, hk⟩ | ⟨h0, hk⟩) | (⟨h0, hk⟩ | ⟨h0, hk⟩)) <;>
            first
            | (obtain ⟨t, ht⟩ := h0; rw [ht]; rfl)
            | exact absurd hk (by decide)
        · intro hs
          obtain ⟨t, ht⟩ := (dataset_iff_isSome g4.2).mpr hs
          exact Or.inr (Or.inr (Or.inr (Or.inr ⟨⟨t, ht⟩, rfl⟩)))
  · intro k hk
    rw [mem_keys_four] at hk
    rcases hk with ((⟨h0, rfl⟩ | ⟨h0, rfl⟩) | (⟨h0, rfl⟩ | ⟨h0, rfl⟩) |
        (⟨h0, rfl⟩ | ⟨h0, rfl⟩) | (⟨h0, rfl⟩ | ⟨h0, rfl⟩))
    · exact ⟨"dense", by simp [layer_names], Or.inl rfl⟩
    · exact ⟨"dense", by simp [layer_names], Or.inr rfl⟩
    · exact ⟨"dense_1", by simp [layer_names], Or.inl rfl⟩
    · exact ⟨"dense_1", by simp [layer_names], Or.inr rfl⟩
    · exact ⟨"dense_2", by simp [layer_names], Or.inl rfl⟩
    · exact ⟨"dense_2", by simp [layer_names], Or.inr rfl⟩
    · exact ⟨"dense_3", by simp [layer_names], Or.inl rfl⟩
    · exact ⟨"dense_3", by simp [layer_names], Or.inr rfl⟩
  · intro g r hgr hgood
    refine ⟨layerEntries r "dense" ++ layerEntries r "dense_1" ++
      layerEntries r "dense_2" ++ layerEntries r "dense_3", ?_⟩
    simp [extract_h5_weights, hgr, traverseLayers_ok_of_good r hgood]

/-- Witness for C8 at `rootW`, whose `dense` layer has only a kernel and
whose `dense_2` layer has no `vars` subgroup. -/
theorem C8_extractor_keys_witness :
    (("dense" ++ "/kernel") ∈ wsW.map Prod.fst ↔
      (vars0At rootW "dense").isSome = true) ∧
    (("dense" ++ "/bias") ∈ wsW.map Prod.fst ↔
      (vars1At rootW "dense").isSome = true) :=
  (C8_extractor_keys ⟨some rootW⟩ rootW wsW rfl rfl).1 "dense" (by simp [layer_names])

/-- Counterexample to C1 as stated: in `envC1` the ddpg container opens
and extraction succeeds with zero usable tensors, yet the driver still
creates the per-model output directory and invokes the Packer, which
writes an empty binary. -/
theorem C1_counterexample :
    extract_h5_weights (envC1.file ddpgPath) = Except.ok (some []) ∧
    mainDriver envC1 ⟨[], []⟩ =
      Except.ok ⟨[outDir "ddpg"], [(binFile "ddpg", [])]⟩ :=
  ⟨rfl, rfl⟩

/-- C1 amended: when the source path exists and extraction returns a
WeightSet — even one with zero usable tensors — the driver treats the job
as successful: it creates the output directory and invokes the Packer,
which records the packed bytes at the fixed binary path. -/
theorem C1_empty_extraction_proceeds (env : Env) (fs : FS) (name path : String)
    (ws : WeightSet) (hex : env.pathExists path = true)
    (hw : extract_h5_weights (env.file path) = Except.ok (some ws)) :
    processJob env fs (name, path) = Except.ok
      { dirs := (os_makedirs fs (outDir name)).dirs,
        files := setFile (os_makedirs fs (outDir name)).files
          (outDir name ++ "/group1-shard1of1.bin") (packBytes ws) } ∧
    outDir name ∈ (os_makedirs fs (outDir name)).dirs ∧
    dictLookup (setFile (os_makedirs fs (outDir name)).files
        (outDir name ++ "/group1-shard1of1.bin") (packBytes ws))
      (outDir name ++ "/group1-shard1of1.bin") = some (packBytes ws) := by
  refine ⟨?_, os_makedirs_mem fs (outDir name), by simp [setFile_lookup]⟩
  have hcr := create_ok_of_mem (os_makedirs fs (outDir name)) ws (outDir name)
    (os_makedirs_mem fs (outDir name))
  simp [processJob, hex, hw, hcr]

/-- Witness for the amended C1, at the empty extraction of `envC1`. -/
theorem C1_empty_extraction_proceeds_witness :
    processJob envC1 ⟨[], []⟩ ("ddpg", ddpgPath) = Except.ok
      { dirs := (os_makedirs ⟨[], []⟩ (outDir "ddpg")).dirs,
        files := setFile (os_makedirs ⟨[], []⟩ (outDir "ddpg")).files
          (outDir "ddpg" ++ "/group1-shard1of1.bin") (packBytes []) } ∧
    outDir "ddpg" ∈ (os_makedirs ⟨[], []⟩ (outDir "ddpg")).dirs ∧
    dictLookup (setFile (os_makedirs ⟨[], []⟩ (outDir "ddpg")).files
        (outDir "ddpg" ++ "/group1-shard1of1.bin") (packBytes []))
      (outDir "ddpg" ++ "/group1-shard1of1.bin") = some (packBytes []) :=
  C1_empty_extraction_proceeds envC1 ⟨[], []⟩ "ddpg" ddpgPath [] rfl rfl

/-- Counterexample to C3 as stated: in `envC3bad` the ddpg container
raises at open, which aborts the whole run before the sac job — although
in `envC3ok`, which differs only in the ddpg source being absent, the sac
job converts fine. -/
theorem C3_counterexample :
    mainDriver envC3bad ⟨[], []⟩ = Except.error () ∧
    envC3bad.pathExists sacPath = true ∧
    envC3bad.file sacPath = H5Source.opened ⟨some []⟩ ∧
    mainDriver envC3ok ⟨[], []⟩ =
      Except.ok ⟨[outDir "sac"], [(binFile "sac", [])]⟩ :=
  ⟨rfl, rfl, rfl, rfl⟩

/-- C3 amended: as long as no container open raises, per-job failures
(missing source file, exceptions caught during the extraction walk, empty
extraction) never abort subsequent entries — the run returns normally,
even when zero models convert, and each job's binary reflects exactly
that job's own outcome; an exception while opening one job's container,
however, aborts the rest of the run. -/
theorem C3_jobs_independent (env : Env)
    (h : ∀ p : String, env.file p ≠ H5Source.unopenable) :
    runsOk env = true ∧
    dictLookup (finalFiles env) (binFile "ddpg") = jobExpected env ("ddpg", ddpgPath) ∧
    dictLookup (finalFiles env) (binFile "td3") = jobExpected env ("td3", td3Path) ∧
    dictLookup (finalFiles env) (binFile "sac") = jobExpected env ("sac", sacPath) := by
  obtain ⟨fs1, e1, l1⟩ := processJob_char env ⟨[], []⟩ "ddpg" ddpgPath (h ddpgPath)
  obtain ⟨fs2, e2, l2⟩ := processJob_char env fs1 "td3" td3Path (h td3Path)
  obtain ⟨fs3, e3, l3⟩ := processJob_char env fs2 "sac" sacPath (h sacPath)
  have hm : mainDriver env ⟨[], []⟩ = Except.ok fs3 := by
    simp only [mainDriver, e1, e2, e3]
  refine ⟨by simp [runsOk, hm], ?_, ?_, ?_⟩
  · have h3 := l3 (binFile "ddpg")
    rw [if_neg (by decide)] at h3
    have h2 := l2 (binFile "ddpg")
    rw [if_neg (by decide)] at h2
    have h1 := l1 (binFile "ddpg")
    rw [if_pos rfl] at h1
    simp [finalFiles, hm, h3, h2, h1, dictLookup, Option.or_none]
  · have h3 := l3 (binFile "td3")
    rw [if_neg (by decide)] at h3
    have h2 := l2 (binFile "td3")
    rw [if_pos rfl] at h2
    have h1 := l1 (binFile "td3")
    rw [if_neg (by decide)] at h1
    simp [finalFiles, hm, h3, h2, h1, dictLookup, Option.or_none]
  · have h3 := l3 (binFile "sac")
    rw [if_pos rfl] at h3
    have h2 := l2 (binFile "sac")
    rw [if_neg (by decide)] at h2
    have h1 := l1 (binFile "sac")
    rw [if_neg (by decide)] at h1
    simp [finalFiles, hm, h3, h2, h1, dictLookup, Option.or_none]

/-- Witness for the amended C3 in a world where no open raises: the run
returns normally with the ddpg and td3 jobs skipped and the sac job
converted. -/
theorem C3_jobs_independent_witness :
    runsOk envNoOpenFail = true ∧
    dictLookup (finalFiles envNoOpenFail) (binFile "ddpg") =
      jobExpected envNoOpenFail ("ddpg", ddpgPath) ∧
    dictLookup (finalFiles envNoOpenFail) (binFile "td3") =
      jobExpected envNoOpenFail ("td3", td3Path) ∧
    dictLookup (finalFiles envNoOpenFail) (binFile "sac") =
      jobExpected envNoOpenFail ("sac", sacPath) :=
  C3_jobs_independent envNoOpenFail (fun p => by simp [envNoOpenFail])
